import Mathlib

/-!
# Transport bridge of `main.go`

A shallow embedding of the request handler passed to `fsthttp.ServeFunc` in
`main.go`, and theorems about it.

Modelling choices.

* Go strings are Lean `String`s, except in the URL query machinery, which
  works on bytes as `url.ParseQuery` does.
* The handler is a state-passing function.  Its state holds the session cache,
  the number of UUIDs minted so far and the *trace*: the calls the handler has
  made, in order, on the response writer (`w.Header().Set`, `w.WriteHeader`,
  `w.Write`) and on its collaborators (`simple.Purge`, `handoff.Fanout`,
  `req.Send`).  The response the client sees is read off the trace by
  `statusOf`, `sentHeaders` and `bodyOf`, following the contract of
  `fsthttp.ResponseWriter`: the first `WriteHeader` (or the first `Write`, with
  an implicit 200) sends the status line and the headers collected so far;
  later `WriteHeader` calls and header changes have no effect; every `Write`
  appends to the body.
* The collaborators that are not part of `main.go` (the MCP engine, the simple
  cache, `uuid.New`, `json.Unmarshal`, the backend behind `req.Send`, the
  environment variable) are fields of `Env`; theorems quantify over them.
  The engine creates no observable effect of its own on the response: all it
  does is call the registered hooks in some order and return a reply, which is
  what `EngineRun` records.
* Writes to standard output and to the log (`fmt.Println`, `fmt.Printf`,
  `log.Printf`) are not part of the response and are left out.
-/

namespace McpServer

/-! ## Strings and formatting -/

/-- Go `strings.HasPrefix(s, p)`. -/
def HasPrefix (s p : String) : Bool := p.data.isPrefixOf s.data

/-- The flag characters skipped by `doPrintf` after a percent sign.  With no
operand the fast path for simple verbs is never taken. -/
def skipFlags : List Char → List Char
  | [] => []
  | c :: cs =>
    if c = '#' ∨ c = '0' ∨ c = '+' ∨ c = '-' ∨ c = ' ' then skipFlags cs else c :: cs

/-- Go `fmt.parsenum`: reads a decimal number; `(0, false, [])` (jump to the
end) when the number grows beyond `1e6`. -/
def parsenumAux (num : Nat) (isnum : Bool) : List Char → Nat × Bool × List Char
  | [] => (num, isnum, [])
  | c :: cs =>
    if c.isDigit then
      if num > 1000000 then (0, false, [])
      else parsenumAux (num * 10 + (c.toNat - 48)) true cs
    else (num, isnum, c :: cs)

/-- Go `fmt.parsenum` from the start of the given text. -/
def parsenum (s : List Char) : Nat × Bool × List Char := parsenumAux 0 false s

/-- Go `fmt.parseArgNumber` on a text that starts with an opening bracket:
returns `ok` and the text that follows the consumed part. -/
def parseArgNumber (s : List Char) : Bool × List Char :=
  if s.length < 3 then (false, s.drop 1)
  else
    let t := s.drop 1
    let inner := t.takeWhile (fun c => c != ']')
    let after := t.dropWhile (fun c => c != ']')
    match after with
    | [] => (false, t)
    | _ :: rest =>
      let r := parsenum inner
      (r.2.1 && r.2.2.isEmpty, rest)

/-- Go `(*pp).argNumber` when there are no operands: an explicit index is never
in range, so it always clears `goodArgNum`.  Returns the remaining text, whether
an index was found, and the new `goodArgNum`. -/
def argNumber (s : List Char) (good : Bool) : List Char × Bool × Bool :=
  match s with
  | '[' :: _ =>
    let r := parseArgNumber s
    (r.2, r.1, false)
  | _ => (s, false, good)

/-- The width part of a directive.  The argument is the result of `argNumber`
(text, `afterIndex`, `goodArgNum`); the result is what is written, the text
left, `afterIndex` and `goodArgNum`.  A star finds no operand and writes
`%!(BADWIDTH)`. -/
def widthStep (a1 : List Char × Bool × Bool) : List Char × List Char × Bool × Bool :=
  match a1.1 with
  | '*' :: s3 => ("%!(BADWIDTH)".data, s3, false, a1.2.2)
  | s2 =>
    let n := parsenum s2
    ([], n.2.2, a1.2.1, if a1.2.1 && n.2.1 then false else a1.2.2)

/-- The precision part of a directive, on the result of `widthStep`.  Go
tests `i+1 < end && format[i] == '.'`: a dot starts a precision only when some
text follows it; a dot that ends the format is left to be the verb.  A star
finds no operand and writes `%!(BADPREC)`. -/
def precStep (w : List Char × List Char × Bool × Bool) :
    List Char × List Char × Bool × Bool :=
  match w.2.1 with
  | '.' :: c :: s4 =>
    let good2 := if w.2.2.1 then false else w.2.2.2
    let a2 := argNumber (c :: s4) good2
    match a2.1 with
    | '*' :: s6 => (w.1 ++ "%!(BADPREC)".data, s6, false, a2.2.2)
    | s5 => (w.1, (parsenum s5).2.2, a2.2.1, a2.2.2)
  | _ => w

/-- The verb part of a directive, on the result of `precStep`: a last look for
an argument index, then the verb.  Returns what is written and the text left. -/
def verbStep (p : List Char × List Char × Bool × Bool) : List Char × List Char :=
  let a3 := if p.2.2.1 then (p.2.1, p.2.2.1, p.2.2.2) else argNumber p.2.1 p.2.2.2
  match a3.1 with
  | [] => (p.1 ++ "%!(NOVERB)".data, [])
  | verb :: rest =>
    if verb = '%' then (p.1 ++ ['%'], rest)
    else if !a3.2.2 then (p.1 ++ "%!".data ++ [verb] ++ "(BADINDEX)".data, rest)
    else (p.1 ++ "%!".data ++ [verb] ++ "(MISSING)".data, rest)

/-- One formatting directive of `doPrintf` with no operands; the argument is
the text after the percent sign.  Returns what is written and the text left:
flags, argument index, width, precision, argument index, verb. -/
def directive (s : List Char) : List Char × List Char :=
  verbStep (precStep (widthStep (argNumber (skipFlags s) true)))

/-- The loop of Go `(*pp).doPrintf(format, a)` with `a` empty: text up to the
next percent sign is copied, then one directive is processed. -/
def doPrintf : Nat → List Char → List Char
  | 0, _ => []
  | fuel + 1, s =>
    let lit := s.takeWhile (fun c => c != '%')
    match s.dropWhile (fun c => c != '%') with
    | [] => lit
    | _ :: d =>
      let r := directive d
      lit ++ r.1 ++ doPrintf fuel r.2

/-- What `fmt.Fprintf(w, format)` writes when called with a format and no
operand.  Every round of `doPrintf` consumes at least the percent sign, so
`length + 1` rounds always suffice. -/
def Sprintf0 (format : String) : String := ⟨doPrintf (format.length + 1) format.data⟩

/-! ## URL query strings

Go strings are byte sequences, and `url.ParseQuery` works on bytes: a percent
escape decodes to one byte, so the decoded keys and values can be any byte
sequence.  The query machinery is therefore modelled on bytes. -/

/-- The bytes of a Go string that need not be text. -/
abbrev Bytes := List Nat

/-- The UTF-8 encoding of one character. -/
def utf8EncodeChar (c : Char) : Bytes :=
  let v := c.toNat
  if v ≤ 127 then [v]
  else if v ≤ 2047 then [192 + v / 64, 128 + v % 64]
  else if v ≤ 65535 then [224 + v / 4096, 128 + (v / 64) % 64, 128 + v % 64]
  else [240 + v / 262144, 128 + (v / 4096) % 64, 128 + (v / 64) % 64, 128 + v % 64]

/-- The bytes of a text: the UTF-8 encodings of its characters. -/
def toBytes : List Char → Bytes
  | [] => []
  | c :: cs => utf8EncodeChar c ++ toBytes cs

/-- Go `url.ishex` on a byte. -/
def ishex (c : Nat) : Bool :=
  (48 ≤ c && c ≤ 57) || (97 ≤ c && c ≤ 102) || (65 ≤ c && c ≤ 70)

/-- Go `url.unhex` on a byte. -/
def unhex (c : Nat) : Nat :=
  if 48 ≤ c && c ≤ 57 then c - 48
  else if 97 ≤ c && c ≤ 102 then c - 97 + 10
  else if 65 ≤ c && c ≤ 70 then c - 65 + 10
  else 0

/-- Go `url.QueryUnescape`: `none` stands for an `EscapeError`.  A percent sign
(37) followed by two hex digits decodes to the byte they name; a plus sign (43)
decodes to a space (32). -/
def QueryUnescape : Bytes → Option Bytes
  | [] => some []
  | c :: cs =>
    if c = 37 then
      match cs with
      | a :: b :: rest =>
        if ishex a && ishex b then
          (QueryUnescape rest).map (fun t => (unhex a * 16 + unhex b) :: t)
        else none
      | _ => none
    else if c = 43 then (QueryUnescape cs).map (fun t => 32 :: t)
    else (QueryUnescape cs).map (fun t => c :: t)

/-- The pieces of a byte sequence between occurrences of a separator. -/
def splitOn (sep : Nat) : Bytes → List Bytes
  | [] => [[]]
  | c :: cs =>
    if c = sep then [] :: splitOn sep cs
    else
      match splitOn sep cs with
      | [] => [[c]]
      | h :: t => (c :: h) :: t

/-- Go `strings.Cut(s, "=")`: the bytes before and after the first equals sign
(61). -/
def cutEq (s : Bytes) : Bytes × Bytes :=
  (s.takeWhile (fun c => c != 61), (s.dropWhile (fun c => c != 61)).drop 1)

/-- Go `url.Values`, as the list of (key, value) pairs in the order they were
appended; `m[key]` is the list of the values appended under `key`. -/
abbrev Values := List (Bytes × Bytes)

/-- Go `m[key]` on `url.Values`. -/
def Values.Get (m : Values) (key : Bytes) : List Bytes :=
  (m.filter (fun p => p.1 == key)).map (fun p => p.2)

/-- One round of the loop of Go `url.parseQuery` on one piece between
ampersands: the state is the map and whether an error has been recorded.  A
piece with a semicolon (59) is an error; an empty piece is skipped. -/
def parseQueryStep (st : Values × Bool) (key : Bytes) : Values × Bool :=
  if key.contains 59 then (st.1, true)
  else if key.isEmpty then st
  else
    let kv := cutEq key
    match QueryUnescape kv.1 with
    | none => (st.1, true)
    | some k =>
      match QueryUnescape kv.2 with
      | none => (st.1, true)
      | some v => (st.1 ++ [(k, v)], st.2)

/-- Go `url.ParseQuery`: the map, and whether the returned error is non-nil.
The Go loop cuts the query at each ampersand (38) in turn; here the pieces are
produced first and then processed in the same order. -/
def ParseQuery (query : String) : Values × Bool :=
  (splitOn 38 (toBytes query.data)).foldl parseQueryStep ([], false)

/-- The query key read by the publish handler, as bytes. -/
def sessionIdKey : Bytes := toBytes "sessionId".data

/-! ## HTTP data -/

/-- Go `fsthttp.Header`, as key/value pairs (the first value of each key). -/
abbrev Header := List (String × String)

/-- Go `Header.Get`: the value for the key, or the empty string. -/
def Header.Get (h : Header) (k : String) : String := (h.lookup k).getD ""

/-- Go `Header.Set`: replaces the value for the key. -/
def Header.Set (h : Header) (k v : String) : Header :=
  (k, v) :: h.filter (fun p => p.1 != k)

/-- The parts of `*fsthttp.Request` the handler reads.  `Body` is the result
of `io.ReadAll(r.Body)`, `none` when reading fails. -/
structure Request where
  Method : String
  Path : String
  RawQuery : String
  Header : Header
  Body : Option String
  deriving Repr

/-- Fields of `GripResponse` in `main.go`. -/
structure GripResponse where
  contentType : String
  gripHold : String
  gripChannel : String
  deriving DecidableEq, Repr

/-- Go struct `HttpStreamData` of `main.go`. -/
structure HttpStreamData where
  Content : String
  deriving DecidableEq, Repr

/-- Go struct `MessageData` of `main.go`. -/
structure MessageData where
  HttpStream : HttpStreamData
  deriving DecidableEq, Repr

/-- Go struct `PublishItem` of `main.go`.  The channel is a decoded query
value, so it is kept as the bytes of the Go string. -/
structure PublishItem where
  Channel : Bytes
  Formats : MessageData
  deriving DecidableEq, Repr

/-- Go struct `PublishData` of `main.go`. -/
structure PublishData where
  Items : List PublishItem
  deriving DecidableEq, Repr

/-- The request built by `fsthttp.NewRequest` in the publish branch: method,
URL, the `Fastly-Key` header, and the payload whose `json.Marshal` output is
the request body. -/
structure PublishRequest where
  Method : String
  URL : String
  FastlyKey : String
  Payload : PublishData
  deriving DecidableEq, Repr

/-- One call made by the handler, in the order of the trace. -/
inductive Ev where
  | SetHeader (k v : String)
  | WriteHeader (code : Nat)
  | Write (p : String)
  | Purge (key : String)
  | Fanout (backend : String)
  | Send (req : PublishRequest) (backend : String)
  deriving DecidableEq, Repr

/-- The status line sent to the client: that of the first `WriteHeader`, or
200 when a `Write` comes first; `none` when the handler wrote nothing. -/
def statusOf : List Ev → Option Nat
  | [] => none
  | Ev.WriteHeader c :: _ => some c
  | Ev.Write _ :: _ => some 200
  | _ :: es => statusOf es

/-- The response body: all written chunks, in order. -/
def bodyOf : List Ev → String
  | [] => ""
  | Ev.Write p :: es => p ++ bodyOf es
  | _ :: es => bodyOf es

/-- The headers sent to the client: those set before the first `WriteHeader`
or `Write`. -/
def sentHeaders : Header → List Ev → Header
  | h, [] => h
  | h, Ev.SetHeader k v :: es => sentHeaders (Header.Set h k v) es
  | h, Ev.WriteHeader _ :: _ => h
  | h, Ev.Write _ :: _ => h
  | h, _ :: es => sentHeaders h es

/-- Whether a call writes a status line or a body chunk. -/
def Ev.isWrite : Ev → Bool
  | Ev.WriteHeader _ => true
  | Ev.Write _ => true
  | _ => false

/-- The publish requests sent, in order. -/
def sentRequests : List Ev → List PublishRequest
  | [] => []
  | Ev.Send req _ :: es => req :: sentRequests es
  | _ :: es => sentRequests es

/-- The observable response to the client: status, sent headers and body. -/
structure Response where
  status : Option Nat
  header : Header
  body : String
  deriving DecidableEq, Repr

/-- The response read off a trace. -/
def responseOf (t : List Ev) : Response :=
  ⟨statusOf t, sentHeaders [] t, bodyOf t⟩

/-! ## Collaborators -/

/-- Go constant `mcp.MethodInitialize`. -/
def MethodInitialize : String := "initialize"

/-- A callback the engine makes while handling one message: the before-any
hook with the method of the message, or the after-initialize hook.  The other
arguments of the callbacks are not used by the hooks of `main.go`. -/
inductive HookCall where
  | BeforeAny (method : String)
  | AfterInitialize
  deriving DecidableEq, Repr

/-- What `mcpServer.HandleMessage` does as seen by the handler: the hook calls
it makes, in order, and the message it returns.  `none` is the nil reply (a
notification); `some j` is a non-nil reply whose `json.Marshal` output is
`j`. -/
structure EngineRun where
  hooks : List HookCall
  reply : Option String
  deriving DecidableEq, Repr

/-- Outcome of `req.Send` followed by `io.ReadAll(fastResp.Body)`. -/
inductive SendResult where
  | sendError
  | readError
  | ok
  deriving DecidableEq, Repr

/-- The collaborators of the handler.  `σ` is the state of the simple cache.
* `HandleMessage raw`: the engine on the raw message.
* `Unmarshal body`: `json.Unmarshal(reqBody, &rawMessage)`; `none` is an error,
  which leaves `rawMessage` nil.
* `Get`: whether `simple.Get` returns without error.
* `GetOrSet`, `Purge`: the error text, or the cache after the call.
* `uuid n`: the string of the `n`-th `uuid.New()` of the request.
* `ServiceID`: `os.Getenv("FASTLY_SERVICE_ID")`.
* `NewRequest url`: whether `fsthttp.NewRequest` accepts the URL.
* `Send`: the outcome of sending the publish request. -/
structure Env (σ : Type) where
  HandleMessage : String → EngineRun
  Unmarshal : String → Option String
  Get : σ → String → Bool
  GetOrSet : σ → String → Except String σ
  Purge : σ → String → Except String σ
  uuid : Nat → String
  ServiceID : String
  NewRequest : String → Bool
  Send : PublishRequest → SendResult

/-- The state threaded through the handler. -/
structure St (σ : Type) where
  cache : σ
  uuids : Nat
  trace : List Ev

/-- Appends one call to the trace. -/
def St.emit {σ : Type} (s : St σ) (e : Ev) : St σ :=
  { s with trace := s.trace ++ [e] }

/-- Go `json.Marshal(response)` on the engine reply: nil marshals to the JSON
literal `null`. -/
def jsonMarshal : Option String → String
  | none => "null"
  | some j => j

/-- Go `fsthttp.Error(w, msg, code)`, which follows `http.Error`: two headers,
the status, the message and a newline. -/
def fsthttpError {σ : Type} (s : St σ) (msg : String) (code : Nat) : St σ :=
  (((s.emit (Ev.SetHeader "Content-Type" "text/plain; charset=utf-8")).emit
    (Ev.SetHeader "X-Content-Type-Options" "nosniff")).emit
    (Ev.WriteHeader code)).emit (Ev.Write (msg ++ "\n"))

/-! ## The handler of `main.go` -/

/-- The callback given to `hooks.AddBeforeAny` (lines 94-111). -/
def beforeAnyHook {σ : Type} (env : Env σ) (r : Request) (method : String)
    (s : St σ) : St σ :=
  if method != MethodInitialize then
    if r.Header.Get "Mcp-Session-Id" == "" then
      (s.emit (Ev.WriteHeader 400)).emit (Ev.Write "Bad request\n")
    else if env.Get s.cache (r.Header.Get "Mcp-Session-Id") then s
    else (s.emit (Ev.WriteHeader 404)).emit (Ev.Write "Not found\n")
  else s

/-- The callback given to `hooks.AddAfterInitialize` (lines 112-126). -/
def afterInitializeHook {σ : Type} (env : Env σ) (s : St σ) : St σ :=
  let key := env.uuid s.uuids
  let s1 : St σ := { s with uuids := s.uuids + 1 }
  match env.GetOrSet s1.cache key with
  | Except.error msg => fsthttpError s1 msg 500
  | Except.ok c =>
    St.emit { s1 with cache := c } (Ev.SetHeader "Mcp-Session-Id" key)

/-- Runs the registered callback for one hook call of the engine. -/
def runHook {σ : Type} (env : Env σ) (r : Request) (s : St σ) : HookCall → St σ
  | HookCall.BeforeAny method => beforeAnyHook env r method s
  | HookCall.AfterInitialize => afterInitializeHook env s

/-- The branch `POST` under `/mcp` (lines 92-144). -/
def mcpPost {σ : Type} (env : Env σ) (r : Request) (s : St σ) : St σ :=
  match r.Body with
  | none => (s.emit (Ev.WriteHeader 400)).emit (Ev.Write "Failed to read body.\n")
  | some reqBody =>
    let rawMessage := (env.Unmarshal reqBody).getD ""
    let run := env.HandleMessage rawMessage
    let s1 := run.hooks.foldl (runHook env r) s
    let eventData := jsonMarshal run.reply
    ((s1.emit (Ev.SetHeader "Content-Type" "application/json")).emit
      (Ev.WriteHeader 200)).emit (Ev.Write (Sprintf0 eventData))

/-- The branch `DELETE` under `/mcp` (lines 145-153). -/
def mcpDelete {σ : Type} (env : Env σ) (r : Request) (s : St σ) : St σ :=
  let s1 :=
    if r.Header.Get "Mcp-Session-Id" == "" then
      (s.emit (Ev.WriteHeader 400)).emit (Ev.Write "Bad request\n")
    else s
  let s2 := s1.emit (Ev.Purge (r.Header.Get "Mcp-Session-Id"))
  match env.Purge s2.cache (r.Header.Get "Mcp-Session-Id") with
  | Except.error _ => (s2.emit (Ev.WriteHeader 405)).emit (Ev.Write "Not allowed\n")
  | Except.ok c => { s2 with cache := c }

/-- The streamable handler: everything under the path `/mcp` (lines 90-157). -/
def handleMcp {σ : Type} (env : Env σ) (r : Request) (s : St σ) : St σ :=
  if r.Method == "POST" then mcpPost env r s
  else if r.Method == "DELETE" then mcpDelete env r s
  else (s.emit (Ev.WriteHeader 200)).emit (Ev.Write "sorry - not supported request atm")

/-- The subscribe handler: `GET` under `/sse` (lines 159-188). -/
def handleSse {σ : Type} (env : Env σ) (r : Request) (s : St σ) : St σ :=
  let sessionID := env.uuid s.uuids
  let s1 : St σ := { s with uuids := s.uuids + 1 }
  if (r.Header.Get "Grip-Sig").length > 0 then
    let m : List (String × GripResponse) :=
      [("/sse", ⟨"text/event-stream", "stream", sessionID⟩)]
    match m.lookup r.Path with
    | some val =>
      ((((((s1.emit (Ev.SetHeader "Content-Type" val.contentType)).emit
        (Ev.SetHeader "Grip-Hold" val.gripHold)).emit
        (Ev.SetHeader "Grip-Channel" val.gripChannel)).emit
        (Ev.SetHeader "Cache-Control" "no-cache")).emit
        (Ev.SetHeader "Connection" "keep-alive")).emit
        (Ev.SetHeader "Access-Control-Allow-Origin" "*")).emit
        (Ev.Write ("event: endpoint\ndata: /messages?sessionId=" ++ sessionID ++ "\r\n\r\n"))
    | none => (s1.emit (Ev.WriteHeader 404)).emit (Ev.Write "No such endpoint\n")
  else s1.emit (Ev.Fanout "self")

/-- The publish handler: `POST` under `/messages` (lines 190-251). -/
def handleMessages {σ : Type} (env : Env σ) (r : Request) (s : St σ) : St σ :=
  let q := ParseQuery r.RawQuery
  match q.2, Values.Get q.1 sessionIdKey with
  | false, sessionID :: _ =>
    match r.Body with
    | none => (s.emit (Ev.WriteHeader 400)).emit (Ev.Write "Failed to read body.\n")
    | some reqBody =>
      let rawMessage := (env.Unmarshal reqBody).getD ""
      let run := env.HandleMessage rawMessage
      match run.reply with
      | none => s
      | some eventData =>
        let message : PublishData :=
          ⟨[⟨sessionID, ⟨⟨"event: message\ndata: " ++ eventData ++ "\n\n"⟩⟩⟩]⟩
        let url := "https://api.fastly.com/service/" ++ env.ServiceID ++ "/publish/"
        -- when `fsthttp.NewRequest` fails the branch ends with nothing written
        if env.NewRequest url then
          let req : PublishRequest := ⟨"POST", url, "__PUT_YOUR_FASTLY_API_TOKEN__", message⟩
          let s1 := s.emit (Ev.Send req "fastly")
          match env.Send req with
          | SendResult.sendError => s1
          | SendResult.readError => s1.emit (Ev.Write "Failed to read body.\n")
          | SendResult.ok =>
            ((s1.emit (Ev.SetHeader "Content-Type" "application/json")).emit
              (Ev.WriteHeader 202)).emit (Ev.Write (eventData ++ "\n"))
        else s
  | _, _ => s

/-- The function given to `fsthttp.ServeFunc` (lines 88-254). -/
def handler {σ : Type} (env : Env σ) (r : Request) (s : St σ) : St σ :=
  if HasPrefix r.Path "/mcp" then handleMcp env r s
  else if HasPrefix r.Path "/sse" && r.Method == "GET" then handleSse env r s
  else if HasPrefix r.Path "/messages" && r.Method == "POST" then handleMessages env r s
  else s

/-- The handler the router selects. -/
inductive Route where
  | streamable
  | subscribe
  | publish
  | fallThrough
  deriving DecidableEq, Repr

/-- The test guarding each branch of `handler` (lines 90, 159 and 190). -/
def Route.test (path method : String) : Route → Bool
  | Route.streamable => HasPrefix path "/mcp"
  | Route.subscribe => HasPrefix path "/sse" && method == "GET"
  | Route.publish => HasPrefix path "/messages" && method == "POST"
  | Route.fallThrough => false

/-- The tests tried in the given order: the first that holds selects. -/
def firstMatch (path method : String) : List Route → Route
  | [] => Route.fallThrough
  | c :: cs => if c.test path method then c else firstMatch path method cs

/-- The choice made by the `if`/`else if` chain of `handler`, in the order of
the source. -/
def route (path method : String) : Route :=
  firstMatch path method [Route.streamable, Route.subscribe, Route.publish]

/-- One request served on a fresh response writer, from the given cache. -/
def serve {σ : Type} (env : Env σ) (cache : σ) (r : Request) : St σ :=
  handler env r ⟨cache, 0, []⟩

/-! ## A concrete environment

Used to run the handler on concrete requests. -/

/-- A stand-in for `simple.Get` of the Compute SDK (an external library), on a
store whose state is the list of live keys: it succeeds iff the key has an
entry.  The three stand-ins follow the store contract of section 4.1 of the
spec: Validate, Create, and a Purge that deletes the entry at once and reports
NotFound for an id without entry. -/
def specGet (c : List String) (key : String) : Bool := c.contains key

/-- A stand-in for `simple.GetOrSet`: stores an entry unless there is one. -/
def specGetOrSet (c : List String) (key : String) : Except String (List String) :=
  if c.contains key then Except.ok c else Except.ok (key :: c)

/-- A stand-in for `simple.Purge`: deletes the entry, NotFound without one. -/
def specPurge (c : List String) (key : String) : Except String (List String) :=
  if c.contains key then Except.ok (c.filter (fun k => k != key))
  else Except.error "NotFound"

/-- A ping request with id 1. -/
def pingMessage : String := "\x7b\"jsonrpc\":\"2.0\",\"id\":1,\"method\":\"ping\"\x7d"

/-- A ping request whose id is the string `%d`. -/
def pingPercentMessage : String := "\x7b\"jsonrpc\":\"2.0\",\"id\":\"%d\",\"method\":\"ping\"\x7d"

/-- An initialize request with id 0. -/
def initializeMessage : String :=
  "\x7b\"jsonrpc\":\"2.0\",\"id\":0,\"method\":\"initialize\",\"params\":\x7b\x7d\x7d"

/-- A request with id 2 for a method the engine does not have. -/
def unknownMethodMessage : String :=
  "\x7b\"jsonrpc\":\"2.0\",\"id\":2,\"method\":\"no/such\"\x7d"

/-- The notification sent after initialization; it has no id. -/
def initializedNotification : String :=
  "\x7b\"jsonrpc\":\"2.0\",\"method\":\"notifications/initialized\"\x7d"

/-- A stub engine with the behaviour of the MCP engine on five messages: a
request for a known method fires the before-any hook with its method and is
answered with a response carrying its id (initialize also fires the
after-initialize hook); a notification fires no hook and has the nil reply; a
request for an unknown method fires no hook and is answered with a
method-not-found error; anything else is answered with a parse error. -/
def stubEngine (raw : String) : EngineRun :=
  if raw = pingMessage then
    ⟨[HookCall.BeforeAny "ping"], some "\x7b\"jsonrpc\":\"2.0\",\"id\":1,\"result\":\x7b\x7d\x7d"⟩
  else if raw = pingPercentMessage then
    ⟨[HookCall.BeforeAny "ping"], some "\x7b\"jsonrpc\":\"2.0\",\"id\":\"%d\",\"result\":\x7b\x7d\x7d"⟩
  else if raw = initializeMessage then
    ⟨[HookCall.BeforeAny "initialize", HookCall.AfterInitialize],
      some "\x7b\"jsonrpc\":\"2.0\",\"id\":0,\"result\":\x7b\"protocolVersion\":\"2024-11-05\"\x7d\x7d"⟩
  else if raw = initializedNotification then ⟨[], none⟩
  else if raw = unknownMethodMessage then
    ⟨[], some ("\x7b\"jsonrpc\":\"2.0\",\"id\":2,\"error\":" ++
      "\x7b\"code\":-32601,\"message\":\"Method no/such not found\"\x7d\x7d")⟩
  else
    ⟨[], some ("\x7b\"jsonrpc\":\"2.0\",\"id\":null,\"error\":" ++
      "\x7b\"code\":-32700,\"message\":\"Failed to parse message\"\x7d\x7d")⟩

/-- The concrete environment: the stub engine, the list-backed store, every
body accepted by `json.Unmarshal`, a publish call that succeeds. -/
def demoEnv : Env (List String) where
  HandleMessage := stubEngine
  Unmarshal := fun b => some b
  Get := specGet
  GetOrSet := specGetOrSet
  Purge := specPurge
  uuid := fun n => "uuid-" ++ toString n
  ServiceID := "svc"
  NewRequest := fun _ => true
  Send := fun _ => SendResult.ok

/-- A request with the given method, path, query, headers and body. -/
def mkRequest (method path query : String) (header : Header) (body : String) : Request :=
  ⟨method, path, query, header, some body⟩

/-! ## Lemmas on formatting -/

theorem skipFlags_length (s : List Char) : (skipFlags s).length ≤ s.length := by
  induction s with
  | nil => simp [skipFlags]
  | cons c cs ih =>
    unfold skipFlags
    split
    · exact Nat.le_succ_of_le ih
    · exact Nat.le_refl _

theorem parsenumAux_length (num : Nat) (isnum : Bool) (s : List Char) :
    (parsenumAux num isnum s).2.2.length ≤ s.length := by
  induction s generalizing num isnum with
  | nil => simp [parsenumAux]
  | cons c cs ih =>
    unfold parsenumAux
    split
    · split
      · simp
      · exact Nat.le_succ_of_le (ih _ _)
    · exact Nat.le_refl _

theorem dropWhile_cons_length {p : Char → Bool} {s rest : List Char} {x : Char}
    (h : s.dropWhile p = x :: rest) : rest.length < s.length := by
  have h1 := (List.dropWhile_suffix p (l := s)).length_le
  rw [h] at h1
  simpa using h1

theorem parseArgNumber_length (s : List Char) : (parseArgNumber s).2.length ≤ s.length := by
  unfold parseArgNumber
  split
  · simp
  · simp only
    split
    · simp
    · rename_i x rest h
      have h1 := dropWhile_cons_length h
      simp only [List.length_drop] at h1
      simp only
      omega

theorem argNumber_length (s : List Char) (good : Bool) :
    (argNumber s good).1.length ≤ s.length := by
  unfold argNumber
  split
  · exact parseArgNumber_length _
  · exact Nat.le_refl _

theorem widthStep_length (a1 : List Char × Bool × Bool) :
    (widthStep a1).2.1.length ≤ a1.1.length := by
  unfold widthStep
  split
  · rename_i s3 h
    rw [h]
    simp
  · exact parsenumAux_length _ _ _

theorem precStep_length (w : List Char × List Char × Bool × Bool) :
    (precStep w).2.1.length ≤ w.2.1.length := by
  unfold precStep
  split
  · rename_i c s4 h
    rw [h]
    have h4 := argNumber_length (c :: s4) (if w.2.2.1 = true then false else w.2.2.2)
    simp only
    split
    · rename_i s6 h6
      rw [h6] at h4
      simp only [List.length_cons] at h4 ⊢
      omega
    · have h5 := parsenumAux_length 0 false
        (argNumber (c :: s4) (if w.2.2.1 = true then false else w.2.2.2)).1
      simp only [List.length_cons, parsenum] at h4 h5 ⊢
      omega
  · exact Nat.le_refl _

theorem verbStep_length (p : List Char × List Char × Bool × Bool) :
    (verbStep p).2.length ≤ p.2.1.length := by
  have ha : (if p.2.2.1 = true then (p.2.1, p.2.2.1, p.2.2.2)
      else argNumber p.2.1 p.2.2.2).1.length ≤ p.2.1.length := by
    split
    · exact Nat.le_refl _
    · exact argNumber_length _ _
  unfold verbStep
  simp only
  generalize (if p.2.2.1 = true then (p.2.1, p.2.2.1, p.2.2.2)
      else argNumber p.2.1 p.2.2.2) = a3 at ha ⊢
  split
  · simp
  · rename_i verb rest h7
    rw [h7] at ha
    simp only [List.length_cons] at ha
    split
    · simp only; omega
    · split <;> (simp only; omega)

theorem directive_length (s : List Char) : (directive s).2.length ≤ s.length := by
  have h1 := skipFlags_length s
  have h2 := argNumber_length (skipFlags s) true
  have h3 := widthStep_length (argNumber (skipFlags s) true)
  have h4 := precStep_length (widthStep (argNumber (skipFlags s) true))
  have h5 := verbStep_length (precStep (widthStep (argNumber (skipFlags s) true)))
  unfold directive
  omega

/-- The rounds of `doPrintf` never run out: any two amounts of fuel above the
length of the format give the same output. -/
theorem doPrintf_fuel (n m : Nat) (s : List Char) (hn : s.length < n) (hm : s.length < m) :
    doPrintf n s = doPrintf m s := by
  induction n generalizing m s with
  | zero => omega
  | succ n ih =>
    cases m with
    | zero => omega
    | succ m =>
      unfold doPrintf
      simp only
      split
      · rfl
      · rename_i x d hd
        have h1 := dropWhile_cons_length hd
        have h2 := directive_length d
        rw [ih m (directive d).2 (by omega) (by omega)]

/-- A format without a percent sign is written unchanged. -/
theorem Sprintf0_of_no_percent (format : String) (h : '%' ∉ format.data) :
    Sprintf0 format = format := by
  have h1 : format.data.takeWhile (fun c => c != '%') = format.data := by
    rw [List.takeWhile_eq_self_iff]
    intro c hc
    have : c ≠ '%' := fun hcp => h (hcp ▸ hc)
    simpa using this
  have h2 : format.data.dropWhile (fun c => c != '%') = [] := by
    rw [List.dropWhile_eq_nil_iff]
    intro c hc
    have : c ≠ '%' := fun hcp => h (hcp ▸ hc)
    simpa using this
  unfold Sprintf0 doPrintf
  simp only [h2, h1]

/-- Directives without operand: a doubled percent sign, a percent sign that
ends the format, a verb, a precision, and a dot that ends the format and so is
the verb. -/
theorem Sprintf0_examples :
    Sprintf0 "a%%b" = "a%b" ∧
    Sprintf0 "100%" = "100%!(NOVERB)" ∧
    Sprintf0 "%d" = "%!d(MISSING)" ∧
    Sprintf0 "%.2f" = "%!f(MISSING)" ∧
    Sprintf0 "%." = "%!.(MISSING)" := by
  decide

/-- The constant formats of `main.go` that have no operand are written as they
stand. -/
theorem constant_formats :
    Sprintf0 "Failed to read body.\n" = "Failed to read body.\n" ∧
    Sprintf0 "sorry - not supported request atm" = "sorry - not supported request atm" ∧
    Sprintf0 "No such endpoint\n" = "No such endpoint\n" := by
  decide

/-! ## Lemmas on traces -/

@[simp]
theorem emit_trace {σ : Type} (s : St σ) (e : Ev) : (s.emit e).trace = s.trace ++ [e] := rfl

@[simp]
theorem emit_cache {σ : Type} (s : St σ) (e : Ev) : (s.emit e).cache = s.cache := rfl

@[simp]
theorem emit_uuids {σ : Type} (s : St σ) (e : Ev) : (s.emit e).uuids = s.uuids := rfl

theorem statusOf_append_some (a b : List Ev) (c : Nat) (h : statusOf a = some c) :
    statusOf (a ++ b) = some c := by
  induction a with
  | nil => simp [statusOf] at h
  | cons e es ih =>
    cases e <;> simp_all [statusOf]

theorem statusOf_append_none (a b : List Ev) (h : statusOf a = none) :
    statusOf (a ++ b) = statusOf b := by
  induction a with
  | nil => rfl
  | cons e es ih =>
    cases e <;> simp_all [statusOf]

theorem bodyOf_append (a b : List Ev) : bodyOf (a ++ b) = bodyOf a ++ bodyOf b := by
  induction a with
  | nil => simp [bodyOf]
  | cons e es ih =>
    cases e <;> simp_all [bodyOf, String.append_assoc]

theorem beforeAnyHook_trace {σ : Type} (env : Env σ) (r : Request) (m : String) (s : St σ) :
    ∃ t, (beforeAnyHook env r m s).trace = s.trace ++ t := by
  unfold beforeAnyHook
  split
  · split
    · exact ⟨[Ev.WriteHeader 400, Ev.Write "Bad request\n"], by simp⟩
    · split
      · exact ⟨[], by simp⟩
      · exact ⟨[Ev.WriteHeader 404, Ev.Write "Not found\n"], by simp⟩
  · exact ⟨[], by simp⟩

theorem afterInitializeHook_trace {σ : Type} (env : Env σ) (s : St σ) :
    ∃ t, (afterInitializeHook env s).trace = s.trace ++ t := by
  unfold afterInitializeHook
  simp only
  split
  · exact ⟨_, by simp [fsthttpError, List.append_assoc]; rfl⟩
  · exact ⟨_, by simp; rfl⟩

theorem runHook_trace {σ : Type} (env : Env σ) (r : Request) (s : St σ) (h : HookCall) :
    ∃ t, (runHook env r s h).trace = s.trace ++ t := by
  cases h with
  | BeforeAny m => exact beforeAnyHook_trace env r m s
  | AfterInitialize => exact afterInitializeHook_trace env s

theorem foldl_runHook_trace {σ : Type} (env : Env σ) (r : Request) (hs : List HookCall)
    (s : St σ) : ∃ t, (hs.foldl (runHook env r) s).trace = s.trace ++ t := by
  induction hs generalizing s with
  | nil => exact ⟨[], by simp⟩
  | cons h hs ih =>
    obtain ⟨t1, h1⟩ := runHook_trace env r s h
    obtain ⟨t2, h2⟩ := ih (runHook env r s h)
    exact ⟨t1 ++ t2, by simp [List.foldl, h2, h1, List.append_assoc]⟩

/-- The trace of a `POST` under `/mcp` whose body is read: the hook calls run
from the fresh state, then the three writes of lines 142-144. -/
theorem serve_mcpPost {σ : Type} (env : Env σ) (cache : σ) (r : Request) (reqBody : String)
    (hpath : HasPrefix r.Path "/mcp" = true) (hmeth : r.Method = "POST")
    (hbody : r.Body = some reqBody) :
    (serve env cache r).trace =
      ((env.HandleMessage ((env.Unmarshal reqBody).getD "")).hooks.foldl (runHook env r)
          ⟨cache, 0, []⟩).trace ++
        [Ev.SetHeader "Content-Type" "application/json", Ev.WriteHeader 200,
          Ev.Write (Sprintf0 (jsonMarshal (env.HandleMessage
            ((env.Unmarshal reqBody).getD "")).reply))] := by
  simp [serve, handler, hpath, handleMcp, hmeth, mcpPost, hbody]

theorem length_pos_of_ne_empty (x : String) (h : x ≠ "") : x.length > 0 := by
  rcases x with ⟨l⟩
  cases l with
  | nil => exact absurd rfl h
  | cons c cs => simp [String.length]

theorem not_mcp_and_sse (path : String) :
    ¬ (HasPrefix path "/mcp" = true ∧ HasPrefix path "/sse" = true) := by
  unfold HasPrefix
  generalize path.data = l
  change ¬ (['/', 'm', 'c', 'p'].isPrefixOf l = true ∧ ['/', 's', 's', 'e'].isPrefixOf l = true)
  rcases l with _ | ⟨a, _ | ⟨b, l⟩⟩ <;> simp [List.isPrefixOf]
  rintro rfl rfl
  simp

theorem not_mcp_and_messages (path : String) :
    ¬ (HasPrefix path "/mcp" = true ∧ HasPrefix path "/messages" = true) := by
  unfold HasPrefix
  generalize path.data = l
  change ¬ (['/', 'm', 'c', 'p'].isPrefixOf l = true ∧
    ['/', 'm', 'e', 's', 's', 'a', 'g', 'e', 's'].isPrefixOf l = true)
  rcases l with _ | ⟨a, _ | ⟨b, _ | ⟨c, l⟩⟩⟩ <;> simp [List.isPrefixOf]
  rintro rfl rfl rfl
  simp

theorem not_sse_and_messages (path : String) :
    ¬ (HasPrefix path "/sse" = true ∧ HasPrefix path "/messages" = true) := by
  unfold HasPrefix
  generalize path.data = l
  change ¬ (['/', 's', 's', 'e'].isPrefixOf l = true ∧
    ['/', 'm', 'e', 's', 's', 'a', 'g', 'e', 's'].isPrefixOf l = true)
  rcases l with _ | ⟨a, _ | ⟨b, l⟩⟩ <;> simp [List.isPrefixOf]
  rintro rfl rfl
  simp

theorem statusOf_append_quiet (a b : List Ev) (h : ∀ e ∈ a, e.isWrite = false) :
    statusOf (a ++ b) = statusOf b := by
  induction a with
  | nil => rfl
  | cons e es ih =>
    have he := h e (List.mem_cons_self _ _)
    have hes : ∀ x ∈ es, x.isWrite = false := fun x hx => h x (List.mem_cons_of_mem _ hx)
    cases e <;> simp_all [statusOf, Ev.isWrite]

theorem bodyOf_append_quiet (a b : List Ev) (h : ∀ e ∈ a, e.isWrite = false) :
    bodyOf (a ++ b) = bodyOf b := by
  induction a with
  | nil => rfl
  | cons e es ih =>
    have he := h e (List.mem_cons_self _ _)
    have hes : ∀ x ∈ es, x.isWrite = false := fun x hx => h x (List.mem_cons_of_mem _ hx)
    cases e <;> simp_all [bodyOf, Ev.isWrite]

theorem header_get_set (h : Header) (k v : String) : Header.Get (Header.Set h k v) k = v := by
  simp [Header.Get, Header.Set, List.lookup]

theorem sentHeaders_append_quiet (a b : List Ev) (k v : String) (c : Nat)
    (h : ∀ e ∈ a, e.isWrite = false) (h0 : Header) :
    Header.Get (sentHeaders h0 (a ++ Ev.SetHeader k v :: Ev.WriteHeader c :: b)) k = v := by
  induction a generalizing h0 with
  | nil => simp [sentHeaders, header_get_set]
  | cons e es ih =>
    have he := h e (List.mem_cons_self _ _)
    have hes : ∀ x ∈ es, x.isWrite = false := fun x hx => h x (List.mem_cons_of_mem _ hx)
    cases e <;> simp_all [sentHeaders, Ev.isWrite]

/-- The handler runs the branch that `route` selects. -/
theorem handler_eq_route {σ : Type} (env : Env σ) (r : Request) (s : St σ) :
    handler env r s =
      match route r.Path r.Method with
      | Route.streamable => handleMcp env r s
      | Route.subscribe => handleSse env r s
      | Route.publish => handleMessages env r s
      | Route.fallThrough => s := by
  unfold handler route
  simp only [firstMatch, Route.test]
  split
  · rfl
  · split
    · rfl
    · split <;> rfl

/-! ## Theorems -/

/-- A `POST` under `/mcp` for which the first callback of the engine is the
before-any hook with a method other than "initialize" is answered with status
400 when the `Mcp-Session-Id` header is empty, and with status 404 when the
header is non-empty and `simple.Get` fails for it. -/
theorem session_check_status_of_hook {σ : Type} (env : Env σ) (cache : σ) (r : Request)
    (reqBody m : String) (rest : List HookCall)
    (hpath : HasPrefix r.Path "/mcp" = true) (hmeth : r.Method = "POST")
    (hbody : r.Body = some reqBody)
    (hrun : (env.HandleMessage ((env.Unmarshal reqBody).getD "")).hooks
      = HookCall.BeforeAny m :: rest)
    (hm : m ≠ MethodInitialize) :
    (r.Header.Get "Mcp-Session-Id" = "" →
      statusOf (serve env cache r).trace = some 400) ∧
    (r.Header.Get "Mcp-Session-Id" ≠ "" →
      env.Get cache (r.Header.Get "Mcp-Session-Id") = false →
      statusOf (serve env cache r).trace = some 404) := by
  rw [serve_mcpPost env cache r reqBody hpath hmeth hbody, hrun]
  constructor
  · intro hempty
    obtain ⟨t, ht⟩ := foldl_runHook_trace env r rest
      (runHook env r ⟨cache, 0, []⟩ (HookCall.BeforeAny m))
    simp only [List.foldl, ht]
    simp only [runHook, beforeAnyHook, hempty, bne_iff_ne, ne_eq, hm, not_false_eq_true,
      if_true, beq_self_eq_true, emit_trace, List.nil_append, List.append_assoc]
    exact statusOf_append_some _ _ _ rfl
  · intro hne hget
    obtain ⟨t, ht⟩ := foldl_runHook_trace env r rest
      (runHook env r ⟨cache, 0, []⟩ (HookCall.BeforeAny m))
    simp only [List.foldl, ht]
    simp only [runHook, beforeAnyHook, bne_iff_ne, ne_eq, hm, not_false_eq_true,
      if_true, beq_iff_eq, hne, if_false, hget, emit_trace, List.nil_append,
      List.append_assoc]
    exact statusOf_append_some _ _ _ rfl

/-- A ping without session header gets 400; a ping with a session id the store
does not know gets 404. -/
theorem session_check_status_of_hook_example :
    statusOf (serve demoEnv [] (mkRequest "POST" "/mcp" "" [] pingMessage)).trace = some 400 ∧
    statusOf (serve demoEnv ["live"]
      (mkRequest "POST" "/mcp" "" [("Mcp-Session-Id", "gone")] pingMessage)).trace
      = some 404 :=
  ⟨(session_check_status_of_hook demoEnv [] (mkRequest "POST" "/mcp" "" [] pingMessage)
      pingMessage "ping" [] (by decide) rfl rfl (by decide) (by decide)).1 (by decide),
   (session_check_status_of_hook demoEnv ["live"]
      (mkRequest "POST" "/mcp" "" [("Mcp-Session-Id", "gone")] pingMessage)
      pingMessage "ping" [] (by decide) rfl rfl (by decide) (by decide)).2
      (by decide) (by decide)⟩

/-- C1 (divergence): the session check is made inside the before-any hook, so
it is made only when the engine calls that hook.  On a `POST` under `/mcp`
whose message makes the engine call no hook (a notification, a request for an
unknown method: methods other than "initialize"), the handler writes only the
reply with status 200, whatever the `Mcp-Session-Id` header is: not 400 for an
empty header and not 404 for an id the store does not know. -/
theorem C1_no_hook_no_session_check {σ : Type} (env : Env σ) (cache : σ) (r : Request)
    (reqBody : String)
    (hpath : HasPrefix r.Path "/mcp" = true) (hmeth : r.Method = "POST")
    (hbody : r.Body = some reqBody)
    (hnone : (env.HandleMessage ((env.Unmarshal reqBody).getD "")).hooks = []) :
    (serve env cache r).trace =
      [Ev.SetHeader "Content-Type" "application/json", Ev.WriteHeader 200,
        Ev.Write (Sprintf0 (jsonMarshal (env.HandleMessage
          ((env.Unmarshal reqBody).getD "")).reply))] ∧
    statusOf (serve env cache r).trace = some 200 := by
  rw [serve_mcpPost env cache r reqBody hpath hmeth hbody, hnone]
  exact ⟨rfl, rfl⟩

/-- Witness of C1: the `initialized` notification and a request for an unknown
method, both without session header, and the notification with a session id
the store does not know.  None is "initialize"; all three get status 200. -/
theorem C1_no_hook_no_session_check_witness :
    Header.Get [] "Mcp-Session-Id" = "" ∧
    statusOf (serve demoEnv []
      (mkRequest "POST" "/mcp" "" [] initializedNotification)).trace = some 200 ∧
    statusOf (serve demoEnv []
      (mkRequest "POST" "/mcp" "" [] unknownMethodMessage)).trace = some 200 ∧
    specGet ["live"] "gone" = false ∧
    statusOf (serve demoEnv ["live"] (mkRequest "POST" "/mcp" ""
      [("Mcp-Session-Id", "gone")] initializedNotification)).trace = some 200 :=
  ⟨by decide,
   (C1_no_hook_no_session_check demoEnv [] (mkRequest "POST" "/mcp" "" []
      initializedNotification) initializedNotification (by decide) rfl rfl (by decide)).2,
   (C1_no_hook_no_session_check demoEnv [] (mkRequest "POST" "/mcp" "" []
      unknownMethodMessage) unknownMethodMessage (by decide) rfl rfl (by decide)).2,
   by decide,
   (C1_no_hook_no_session_check demoEnv ["live"] (mkRequest "POST" "/mcp" ""
      [("Mcp-Session-Id", "gone")] initializedNotification) initializedNotification
      (by decide) rfl rfl (by decide)).2⟩

/-- C2 (divergence): when the before-dispatch hook rejects a `POST` under
`/mcp` (empty or unknown `Mcp-Session-Id`, method other than "initialize"), the
handler does not stop.  After the two writes of the hook the trace goes on and
ends with the Content-Type header, `WriteHeader(200)` and the write of the
engine reply, so the reply is appended to the text of the hook. -/
theorem C2_rejection_does_not_stop_handler {σ : Type} (env : Env σ) (cache : σ)
    (r : Request) (reqBody m : String) (rest : List HookCall)
    (hpath : HasPrefix r.Path "/mcp" = true) (hmeth : r.Method = "POST")
    (hbody : r.Body = some reqBody)
    (hrun : (env.HandleMessage ((env.Unmarshal reqBody).getD "")).hooks
      = HookCall.BeforeAny m :: rest)
    (hm : m ≠ MethodInitialize)
    (hrej : r.Header.Get "Mcp-Session-Id" = "" ∨
      env.Get cache (r.Header.Get "Mcp-Session-Id") = false) :
    ∃ code text mid,
      ((code = 400 ∧ text = "Bad request\n") ∨ (code = 404 ∧ text = "Not found\n")) ∧
      (serve env cache r).trace =
        [Ev.WriteHeader code, Ev.Write text] ++ mid ++
          [Ev.SetHeader "Content-Type" "application/json", Ev.WriteHeader 200,
            Ev.Write (Sprintf0 (jsonMarshal (env.HandleMessage
              ((env.Unmarshal reqBody).getD "")).reply))] ∧
      bodyOf (serve env cache r).trace =
        text ++ (bodyOf mid ++ Sprintf0 (jsonMarshal (env.HandleMessage
              ((env.Unmarshal reqBody).getD "")).reply)) := by
  rw [serve_mcpPost env cache r reqBody hpath hmeth hbody, hrun]
  obtain ⟨t, ht⟩ := foldl_runHook_trace env r rest
    (runHook env r ⟨cache, 0, []⟩ (HookCall.BeforeAny m))
  simp only [List.foldl, ht]
  by_cases hempty : r.Header.Get "Mcp-Session-Id" = ""
  · refine ⟨400, "Bad request\n", t, Or.inl ⟨rfl, rfl⟩, ?_, ?_⟩
    · simp [runHook, beforeAnyHook, hempty, hm]
    · simp [runHook, beforeAnyHook, hempty, hm, bodyOf_append, bodyOf]
  · have hget : env.Get cache (r.Header.Get "Mcp-Session-Id") = false := by
      rcases hrej with h | h
      · exact absurd h hempty
      · exact h
    refine ⟨404, "Not found\n", t, Or.inr ⟨rfl, rfl⟩, ?_, ?_⟩
    · simp [runHook, beforeAnyHook, hempty, hm, hget]
    · simp [runHook, beforeAnyHook, hempty, hm, hget, bodyOf_append, bodyOf]

/-- Witness of C2: a ping without session header.  The response has status 400
and its body is the text of the hook followed by the reply of the engine. -/
theorem C2_rejection_does_not_stop_handler_witness :
    (∃ code text mid,
      ((code = 400 ∧ text = "Bad request\n") ∨ (code = 404 ∧ text = "Not found\n")) ∧
      (serve demoEnv [] (mkRequest "POST" "/mcp" "" [] pingMessage)).trace =
        [Ev.WriteHeader code, Ev.Write text] ++ mid ++
          [Ev.SetHeader "Content-Type" "application/json", Ev.WriteHeader 200,
            Ev.Write (Sprintf0 (jsonMarshal (demoEnv.HandleMessage
              ((demoEnv.Unmarshal pingMessage).getD "")).reply))] ∧
      bodyOf (serve demoEnv [] (mkRequest "POST" "/mcp" "" [] pingMessage)).trace =
        text ++ (bodyOf mid ++ Sprintf0 (jsonMarshal (demoEnv.HandleMessage
              ((demoEnv.Unmarshal pingMessage).getD "")).reply))) ∧
    responseOf (serve demoEnv [] (mkRequest "POST" "/mcp" "" [] pingMessage)).trace =
      ⟨some 400, [], "Bad request\n\x7b\"jsonrpc\":\"2.0\",\"id\":1,\"result\":\x7b\x7d\x7d"⟩ :=
  ⟨C2_rejection_does_not_stop_handler demoEnv [] (mkRequest "POST" "/mcp" "" [] pingMessage)
      pingMessage "ping" [] (by decide) rfl rfl (by decide) (by decide) (Or.inl (by decide)),
    by decide⟩

/-- C3 (divergence): a `DELETE` under `/mcp` with an empty `Mcp-Session-Id`
header writes 400 and "Bad request", and then still calls `simple.Purge` with
the empty key; when that call fails it also calls `WriteHeader(405)` and
appends "Not allowed" to the body. -/
theorem C3_delete_without_header_still_purges {σ : Type} (env : Env σ) (cache : σ)
    (r : Request)
    (hpath : HasPrefix r.Path "/mcp" = true) (hmeth : r.Method = "DELETE")
    (hempty : r.Header.Get "Mcp-Session-Id" = "") :
    (serve env cache r).trace =
      [Ev.WriteHeader 400, Ev.Write "Bad request\n", Ev.Purge ""] ++
        (match env.Purge cache "" with
          | Except.error _ => [Ev.WriteHeader 405, Ev.Write "Not allowed\n"]
          | Except.ok _ => []) := by
  have hne : ¬ ("DELETE" = "POST") := by decide
  simp only [serve, handler, hpath, handleMcp, hmeth, mcpDelete, hempty, if_true,
    beq_iff_eq, hne, if_false, beq_self_eq_true, emit_cache]
  cases env.Purge cache "" <;> simp

/-- Witness of C3: a `DELETE /mcp` without session header on the list-backed
store.  Purge is called with the empty key, reports NotFound, and the body is
"Bad request" followed by "Not allowed". -/
theorem C3_delete_without_header_still_purges_witness :
    (serve demoEnv ["live"] (mkRequest "DELETE" "/mcp" "" [] "")).trace =
      [Ev.WriteHeader 400, Ev.Write "Bad request\n", Ev.Purge "",
        Ev.WriteHeader 405, Ev.Write "Not allowed\n"] ∧
    responseOf (serve demoEnv ["live"] (mkRequest "DELETE" "/mcp" "" [] "")).trace =
      ⟨some 400, [], "Bad request\nNot allowed\n"⟩ :=
  ⟨C3_delete_without_header_still_purges demoEnv ["live"]
      (mkRequest "DELETE" "/mcp" "" [] "") (by decide) rfl (by decide),
    by decide⟩

/-- C5: a `GET` on the path `/sse` with a non-empty `Grip-Sig` header gets a
hold response (`Grip-Hold: stream`, `Content-Type: text/event-stream`), and
the session id in the endpoint line of the body is the value of the
`Grip-Channel` header (both are the freshly minted UUID). -/
theorem C5_sse_hold_channel_is_announced_id {σ : Type} (env : Env σ) (cache : σ)
    (r : Request)
    (hpath : r.Path = "/sse") (hmeth : r.Method = "GET")
    (hsig : r.Header.Get "Grip-Sig" ≠ "") :
    (responseOf (serve env cache r).trace).header.Get "Grip-Hold" = "stream" ∧
    (responseOf (serve env cache r).trace).header.Get "Content-Type" = "text/event-stream" ∧
    (responseOf (serve env cache r).trace).header.Get "Grip-Channel" = env.uuid 0 ∧
    (responseOf (serve env cache r).trace).body =
      "event: endpoint\ndata: /messages?sessionId=" ++ env.uuid 0 ++ "\r\n\r\n" ∧
    (responseOf (serve env cache r).trace).status = some 200 := by
  have hlen := length_pos_of_ne_empty _ hsig
  have h1 : HasPrefix "/sse" "/mcp" = false := by decide
  have h2 : HasPrefix "/sse" "/sse" = true := by decide
  have ht : (serve env cache r).trace =
      [Ev.SetHeader "Content-Type" "text/event-stream", Ev.SetHeader "Grip-Hold" "stream",
        Ev.SetHeader "Grip-Channel" (env.uuid 0), Ev.SetHeader "Cache-Control" "no-cache",
        Ev.SetHeader "Connection" "keep-alive",
        Ev.SetHeader "Access-Control-Allow-Origin" "*",
        Ev.Write ("event: endpoint\ndata: /messages?sessionId=" ++ env.uuid 0 ++ "\r\n\r\n")] := by
    simp [serve, handler, h1, h2, hmeth, handleSse, hlen, hpath, List.lookup]
  rw [ht]
  simp [responseOf, sentHeaders, statusOf, bodyOf, Header.Get, Header.Set, List.lookup]

/-- Witness of C5: a signed `GET /sse`. -/
theorem C5_sse_hold_channel_is_announced_id_witness :
    (responseOf (serve demoEnv []
      (mkRequest "GET" "/sse" "" [("Grip-Sig", "sig")] "")).trace).header.Get "Grip-Channel"
      = "uuid-0" ∧
    (responseOf (serve demoEnv []
      (mkRequest "GET" "/sse" "" [("Grip-Sig", "sig")] "")).trace).body
      = "event: endpoint\ndata: /messages?sessionId=uuid-0\r\n\r\n" :=
  have h := C5_sse_hold_channel_is_announced_id demoEnv []
    (mkRequest "GET" "/sse" "" [("Grip-Sig", "sig")] "") rfl rfl (by decide)
  ⟨h.2.2.1, h.2.2.2.1⟩

/-- C6: a `GET` under `/sse` with an empty `Grip-Sig` header makes the Fanout
hand-off exactly once and nothing else: the trace is that single call, so no
status, no header and no body is written. -/
theorem C6_sse_unsigned_hands_off {σ : Type} (env : Env σ) (cache : σ) (r : Request)
    (hpath : HasPrefix r.Path "/sse" = true) (hmeth : r.Method = "GET")
    (hsig : r.Header.Get "Grip-Sig" = "") :
    (serve env cache r).trace = [Ev.Fanout "self"] ∧
    responseOf (serve env cache r).trace = ⟨none, [], ""⟩ := by
  have h1 : HasPrefix r.Path "/mcp" = false := by
    have := not_mcp_and_sse r.Path
    simp_all
  have ht : (serve env cache r).trace = [Ev.Fanout "self"] := by
    simp [serve, handler, h1, hpath, hmeth, handleSse, hsig]
  rw [ht]
  exact ⟨rfl, rfl⟩

/-- Witness of C6: an unsigned `GET /sse/stream`. -/
theorem C6_sse_unsigned_hands_off_witness :
    (serve demoEnv [] (mkRequest "GET" "/sse/stream" "" [] "")).trace = [Ev.Fanout "self"] ∧
    responseOf (serve demoEnv [] (mkRequest "GET" "/sse/stream" "" [] "")).trace
      = ⟨none, [], ""⟩ :=
  C6_sse_unsigned_hands_off demoEnv [] (mkRequest "GET" "/sse/stream" "" [] "")
    (by decide) rfl (by decide)

/-- C7: the branch the handler runs is a function of the path and the method
alone (`route`): prefix `/mcp` selects the streamable handler whatever the
method, otherwise prefix `/sse` with `GET` the subscribe handler, otherwise
prefix `/messages` with `POST` the publish handler, and every other request
falls through with nothing written.  No path has two of the three prefixes, and
trying the three tests in any order selects the same handler. -/
theorem C7_router_is_function_of_path_and_method :
    (∀ (σ : Type) (env : Env σ) (r : Request) (s : St σ),
      handler env r s =
        match route r.Path r.Method with
        | Route.streamable => handleMcp env r s
        | Route.subscribe => handleSse env r s
        | Route.publish => handleMessages env r s
        | Route.fallThrough => s) ∧
    (∀ path method : String,
      route path method =
        if HasPrefix path "/mcp" then Route.streamable
        else if HasPrefix path "/sse" && method == "GET" then Route.subscribe
        else if HasPrefix path "/messages" && method == "POST" then Route.publish
        else Route.fallThrough) ∧
    (∀ (σ : Type) (env : Env σ) (cache : σ) (r : Request),
      route r.Path r.Method = Route.fallThrough → (serve env cache r).trace = []) ∧
    (∀ path : String,
      ¬ (HasPrefix path "/mcp" = true ∧ HasPrefix path "/sse" = true) ∧
      ¬ (HasPrefix path "/mcp" = true ∧ HasPrefix path "/messages" = true) ∧
      ¬ (HasPrefix path "/sse" = true ∧ HasPrefix path "/messages" = true)) ∧
    (∀ (path method : String) (order : List Route),
      order.Perm [Route.streamable, Route.subscribe, Route.publish] →
      firstMatch path method order = route path method) := by
  refine ⟨fun σ env r s => handler_eq_route env r s, ?_, ?_, ?_, ?_⟩
  · intro path method
    simp only [route, firstMatch, Route.test]
  · intro σ env cache r h
    simp [serve, handler_eq_route, h]
  · intro path
    exact ⟨not_mcp_and_sse path, not_mcp_and_messages path, not_sse_and_messages path⟩
  · intro path method order horder
    rw [← List.mem_permutations'] at horder
    have hperm : [Route.streamable, Route.subscribe, Route.publish].permutations' =
        [[Route.streamable, Route.subscribe, Route.publish],
         [Route.subscribe, Route.streamable, Route.publish],
         [Route.subscribe, Route.publish, Route.streamable],
         [Route.streamable, Route.publish, Route.subscribe],
         [Route.publish, Route.streamable, Route.subscribe],
         [Route.publish, Route.subscribe, Route.streamable]] := by decide
    rw [hperm] at horder
    have h1 := not_mcp_and_sse path
    have h2 := not_mcp_and_messages path
    have h3 := not_sse_and_messages path
    simp only [List.mem_cons, List.mem_singleton, List.not_mem_nil, or_false] at horder
    rcases horder with rfl | rfl | rfl | rfl | rfl | rfl <;>
      simp only [route, firstMatch, Route.test] <;>
      cases hA : HasPrefix path "/mcp" <;> cases hB : HasPrefix path "/sse" <;>
      cases hC : HasPrefix path "/messages" <;> simp_all

/-- C8 (divergence): on a `POST` under `/mcp` where no hook has written a
status or a body and the engine returns a reply with JSON serialization `j`,
the response has status 200 and Content-Type application/json, but the body is
not `j` itself: `j` is passed to `fmt.Fprintf` as the format, so the body is
`j` with every percent directive expanded. -/
theorem C8_reply_is_written_as_format {σ : Type} (env : Env σ) (cache : σ) (r : Request)
    (reqBody j : String)
    (hpath : HasPrefix r.Path "/mcp" = true) (hmeth : r.Method = "POST")
    (hbody : r.Body = some reqBody)
    (hquiet : ∀ e ∈ ((env.HandleMessage ((env.Unmarshal reqBody).getD "")).hooks.foldl
      (runHook env r) ⟨cache, 0, []⟩).trace, e.isWrite = false)
    (hreply : (env.HandleMessage ((env.Unmarshal reqBody).getD "")).reply = some j) :
    (responseOf (serve env cache r).trace).status = some 200 ∧
    (responseOf (serve env cache r).trace).header.Get "Content-Type" = "application/json" ∧
    (responseOf (serve env cache r).trace).body = Sprintf0 j := by
  rw [serve_mcpPost env cache r reqBody hpath hmeth hbody, hreply]
  refine ⟨?_, ?_, ?_⟩
  · simp only [responseOf]
    rw [statusOf_append_quiet _ _ hquiet]
    rfl
  · simp only [responseOf]
    exact sentHeaders_append_quiet _ _ _ _ _ hquiet []
  · simp only [responseOf]
    rw [bodyOf_append_quiet _ _ hquiet]
    simp [bodyOf, jsonMarshal]

/-- Witness of C8: a ping whose id is the string `%d`, on a live session.  The
reply of the engine carries the id; the body written has `%!d(MISSING)` in its
place and so differs from the reply. -/
theorem C8_reply_is_written_as_format_witness :
    (demoEnv.HandleMessage pingPercentMessage).reply
      = some "\x7b\"jsonrpc\":\"2.0\",\"id\":\"%d\",\"result\":\x7b\x7d\x7d" ∧
    (responseOf (serve demoEnv ["live"] (mkRequest "POST" "/mcp" ""
      [("Mcp-Session-Id", "live")] pingPercentMessage)).trace).body
      = "\x7b\"jsonrpc\":\"2.0\",\"id\":\"%!d(MISSING)\",\"result\":\x7b\x7d\x7d" ∧
    (responseOf (serve demoEnv ["live"] (mkRequest "POST" "/mcp" ""
      [("Mcp-Session-Id", "live")] pingPercentMessage)).trace).body
      ≠ "\x7b\"jsonrpc\":\"2.0\",\"id\":\"%d\",\"result\":\x7b\x7d\x7d" :=
  have h := C8_reply_is_written_as_format demoEnv ["live"] (mkRequest "POST" "/mcp" ""
      [("Mcp-Session-Id", "live")] pingPercentMessage) pingPercentMessage
      "\x7b\"jsonrpc\":\"2.0\",\"id\":\"%d\",\"result\":\x7b\x7d\x7d" (by decide) rfl rfl
      (by decide) (by decide)
  ⟨by decide, h.2.2.trans (by decide), by rw [h.2.2]; decide⟩

/-- C9 (divergence): on a `POST` under `/mcp` for which the engine returns nil
(a notification) and no hook has written a status or a body, the response has
status 200, but its body is not empty: the nil reply is marshalled like any
other and the four characters `null` are written. -/
theorem C9_notification_body_is_null {σ : Type} (env : Env σ) (cache : σ) (r : Request)
    (reqBody : String)
    (hpath : HasPrefix r.Path "/mcp" = true) (hmeth : r.Method = "POST")
    (hbody : r.Body = some reqBody)
    (hquiet : ∀ e ∈ ((env.HandleMessage ((env.Unmarshal reqBody).getD "")).hooks.foldl
      (runHook env r) ⟨cache, 0, []⟩).trace, e.isWrite = false)
    (hreply : (env.HandleMessage ((env.Unmarshal reqBody).getD "")).reply = none) :
    (responseOf (serve env cache r).trace).status = some 200 ∧
    (responseOf (serve env cache r).trace).body = "null" ∧
    (responseOf (serve env cache r).trace).body ≠ "" := by
  rw [serve_mcpPost env cache r reqBody hpath hmeth hbody, hreply]
  have hb : bodyOf (((env.HandleMessage ((env.Unmarshal reqBody).getD "")).hooks.foldl
      (runHook env r) ⟨cache, 0, []⟩).trace ++
        [Ev.SetHeader "Content-Type" "application/json", Ev.WriteHeader 200,
          Ev.Write (Sprintf0 (jsonMarshal none))]) = "null" := by
    rw [bodyOf_append_quiet _ _ hquiet]
    decide
  refine ⟨?_, ?_, ?_⟩
  · simp only [responseOf]
    rw [statusOf_append_quiet _ _ hquiet]
    rfl
  · simp only [responseOf]
    exact hb
  · simp only [responseOf]
    rw [hb]
    decide

/-- Witness of C9: the `initialized` notification on a live session.  The
engine fires no hook and returns nil; the body of the response is `null`. -/
theorem C9_notification_body_is_null_witness :
    demoEnv.HandleMessage initializedNotification = ⟨[], none⟩ ∧
    (responseOf (serve demoEnv ["live"] (mkRequest "POST" "/mcp" ""
      [("Mcp-Session-Id", "live")] initializedNotification)).trace).status = some 200 ∧
    (responseOf (serve demoEnv ["live"] (mkRequest "POST" "/mcp" ""
      [("Mcp-Session-Id", "live")] initializedNotification)).trace).body = "null" ∧
    (responseOf (serve demoEnv ["live"] (mkRequest "POST" "/mcp" ""
      [("Mcp-Session-Id", "live")] initializedNotification)).trace).body ≠ "" :=
  ⟨by decide,
   C9_notification_body_is_null demoEnv ["live"] (mkRequest "POST" "/mcp" ""
    [("Mcp-Session-Id", "live")] initializedNotification) initializedNotification
    (by decide) rfl rfl (by decide) (by decide)⟩

/-- C10 (as stated, refuted): session `k` is live and `DELETE /mcp` with that
session id purges it.  The next `POST /mcp` with the same header gets status
200, not 404, when it is an initialize request, which the guard of the hook
exempts from the session check, and also when it is a notification, for which
the engine calls no hook. -/
theorem C10_post_after_delete_counterexample :
    specGet ["k"] "k" = true ∧
    (serve demoEnv ["k"] (mkRequest "DELETE" "/mcp" "" [("Mcp-Session-Id", "k")] "")).trace
      = [Ev.Purge "k"] ∧
    (serve demoEnv ["k"] (mkRequest "DELETE" "/mcp" "" [("Mcp-Session-Id", "k")] "")).cache
      = [] ∧
    statusOf (serve demoEnv
      (serve demoEnv ["k"] (mkRequest "DELETE" "/mcp" "" [("Mcp-Session-Id", "k")] "")).cache
      (mkRequest "POST" "/mcp" "" [("Mcp-Session-Id", "k")] initializeMessage)).trace
      = some 200 ∧
    statusOf (serve demoEnv
      (serve demoEnv ["k"] (mkRequest "DELETE" "/mcp" "" [("Mcp-Session-Id", "k")] "")).cache
      (mkRequest "POST" "/mcp" "" [("Mcp-Session-Id", "k")] initializedNotification)).trace
      = some 200 := by
  decide

/-- C10 (amended): for a non-empty session id `k` that is live in the store,
when a `DELETE` under `/mcp` carries `k` and its Purge succeeds, a following
`POST` under `/mcp` with the same header value gets status 404 provided the
engine calls the before-dispatch hook for its message, with a method other
than "initialize" (`hrun`, `hm`).  Nothing is stated for a message for which
the engine calls no hook.  The store is any store whose successful Purge
deletes the entry (`hstore`). -/
theorem C10_post_after_delete_is_404 {σ : Type} (env : Env σ) (cache : σ)
    (del post : Request) (k reqBody m : String) (rest : List HookCall)
    (hstore : ∀ (c c1 : σ) (key : String), env.Purge c key = Except.ok c1 →
      env.Get c1 key = false)
    (hk : k ≠ "") (_hlive : env.Get cache k = true)
    (hdpath : HasPrefix del.Path "/mcp" = true) (hdmeth : del.Method = "DELETE")
    (hdkey : del.Header.Get "Mcp-Session-Id" = k)
    (hpurge : ∃ c1, env.Purge cache k = Except.ok c1)
    (hppath : HasPrefix post.Path "/mcp" = true) (hpmeth : post.Method = "POST")
    (hpkey : post.Header.Get "Mcp-Session-Id" = k)
    (hbody : post.Body = some reqBody)
    (hrun : (env.HandleMessage ((env.Unmarshal reqBody).getD "")).hooks
      = HookCall.BeforeAny m :: rest)
    (hm : m ≠ MethodInitialize) :
    statusOf (serve env (serve env cache del).cache post).trace = some 404 := by
  obtain ⟨c1, hc1⟩ := hpurge
  have hne : ¬ ("DELETE" = "POST") := by decide
  have hcache : (serve env cache del).cache = c1 := by
    simp [serve, handler, hdpath, handleMcp, hdmeth, mcpDelete, hdkey, hk, hc1]
  rw [hcache]
  have hget : env.Get c1 (post.Header.Get "Mcp-Session-Id") = false := by
    rw [hpkey]
    exact hstore cache c1 k hc1
  have hkey : post.Header.Get "Mcp-Session-Id" ≠ "" := by rw [hpkey]; exact hk
  rw [serve_mcpPost env c1 post reqBody hppath hpmeth hbody, hrun]
  obtain ⟨t, ht⟩ := foldl_runHook_trace env post rest
    (runHook env post ⟨c1, 0, []⟩ (HookCall.BeforeAny m))
  simp only [List.foldl, ht]
  simp only [runHook, beforeAnyHook, bne_iff_ne, ne_eq, hm, not_false_eq_true,
    if_true, beq_iff_eq, hkey, if_false, hget, emit_trace, List.nil_append,
    List.append_assoc]
  exact statusOf_append_some _ _ _ rfl

/-- The list-backed store satisfies the hypothesis on Purge. -/
theorem specPurge_deletes (c c1 : List String) (key : String)
    (h : specPurge c key = Except.ok c1) : specGet c1 key = false := by
  unfold specPurge at h
  split at h
  · injection h with h
    subst h
    simp [specGet]
  · cases h

/-- Witness of C10 (amended): session `k` is live, is deleted, and a ping with
the same header then gets 404. -/
theorem C10_post_after_delete_is_404_witness :
    specGet ["k"] "k" = true ∧
    statusOf (serve demoEnv
      (serve demoEnv ["k"] (mkRequest "DELETE" "/mcp" "" [("Mcp-Session-Id", "k")] "")).cache
      (mkRequest "POST" "/mcp" "" [("Mcp-Session-Id", "k")] pingMessage)).trace
      = some 404 :=
  ⟨by decide,
   C10_post_after_delete_is_404 demoEnv ["k"]
    (mkRequest "DELETE" "/mcp" "" [("Mcp-Session-Id", "k")] "")
    (mkRequest "POST" "/mcp" "" [("Mcp-Session-Id", "k")] pingMessage)
    "k" pingMessage "ping" [] specPurge_deletes (by decide) (by decide) (by decide) rfl
    (by decide) ⟨[], rfl⟩ (by decide) rfl (by decide) rfl (by decide) (by decide)⟩

/-- C4 (as stated, refuted), at three requests whose query carries
`sessionId=abc`, each with a ping and a publish call that succeeds.
(1) `sessionId=abc`: the status is 202 but the body is the JSON serialization
of the reply followed by a newline (the output of `json.Encoder.Encode`), not
the serialization alone.
(2) `sessionId=abc&x=%zz`: `url.ParseQuery` returns an error for the other
parameter, and the guard of line 193 ends the request with nothing written and
nothing published.
(3) `sessionId=first&sessionId=abc`: the channel is the first value, `first`,
not `abc`. -/
theorem C4_publish_counterexample :
    (demoEnv.HandleMessage pingMessage).reply
      = some "\x7b\"jsonrpc\":\"2.0\",\"id\":1,\"result\":\x7b\x7d\x7d" ∧
    (responseOf (serve demoEnv []
      (mkRequest "POST" "/messages" "sessionId=abc" [] pingMessage)).trace).status
      = some 202 ∧
    (responseOf (serve demoEnv []
      (mkRequest "POST" "/messages" "sessionId=abc" [] pingMessage)).trace).body
      = "\x7b\"jsonrpc\":\"2.0\",\"id\":1,\"result\":\x7b\x7d\x7d\n" ∧
    (responseOf (serve demoEnv []
      (mkRequest "POST" "/messages" "sessionId=abc" [] pingMessage)).trace).body
      ≠ "\x7b\"jsonrpc\":\"2.0\",\"id\":1,\"result\":\x7b\x7d\x7d" ∧
    (serve demoEnv []
      (mkRequest "POST" "/messages" "sessionId=abc&x=%zz" [] pingMessage)).trace = [] ∧
    (sentRequests (serve demoEnv [] (mkRequest "POST" "/messages"
      "sessionId=first&sessionId=abc" [] pingMessage)).trace).map
        (fun q => q.Payload.Items.map (fun i => i.Channel))
      = [[toBytes "first".data]] ∧
    toBytes "first".data ≠ toBytes "abc".data := by
  decide

/-- A percent escape decodes to a byte: the query `sessionId=%C3%A9` has the
two bytes of the UTF-8 encoding of one character as its value. -/
theorem ParseQuery_escape_is_byte :
    ParseQuery "sessionId=%C3%A9" = ([(sessionIdKey, [195, 169])], false) ∧
    toBytes "é".data = [195, 169] := by
  decide

/-- C4 (amended): on a `POST` under `/messages` whose query `url.ParseQuery`
accepts without error, with `X` as the first value of `sessionId`, when the
engine returns a reply with JSON serialization `j` and the publish request is
built and sent with success: (a) the status is 202 and the body is `j`
followed by one newline; (b) exactly one publish request is sent, its payload
has exactly one item, with channel `X` and http-stream content
"event: message", newline, "data: ", `j` and two newlines. -/
theorem C4_publish_and_accept {σ : Type} (env : Env σ) (cache : σ) (r : Request)
    (reqBody j : String) (X : Bytes) (more : List Bytes)
    (hpath : HasPrefix r.Path "/messages" = true) (hmeth : r.Method = "POST")
    (hq : (ParseQuery r.RawQuery).2 = false)
    (hsid : Values.Get (ParseQuery r.RawQuery).1 sessionIdKey = X :: more)
    (hbody : r.Body = some reqBody)
    (hreply : (env.HandleMessage ((env.Unmarshal reqBody).getD "")).reply = some j)
    (hnew : env.NewRequest
      ("https://api.fastly.com/service/" ++ env.ServiceID ++ "/publish/") = true)
    (hsend : env.Send ⟨"POST", "https://api.fastly.com/service/" ++ env.ServiceID ++ "/publish/",
      "__PUT_YOUR_FASTLY_API_TOKEN__",
      ⟨[⟨X, ⟨⟨"event: message\ndata: " ++ j ++ "\n\n"⟩⟩⟩]⟩⟩ = SendResult.ok) :
    (responseOf (serve env cache r).trace).status = some 202 ∧
    (responseOf (serve env cache r).trace).body = j ++ "\n" ∧
    ∃ req, sentRequests (serve env cache r).trace = [req] ∧
      req.Payload.Items = [⟨X, ⟨⟨"event: message\ndata: " ++ j ++ "\n\n"⟩⟩⟩] := by
  have h1 : HasPrefix r.Path "/mcp" = false := by
    have := not_mcp_and_messages r.Path
    simp_all
  have ht : (serve env cache r).trace =
      [Ev.Send ⟨"POST", "https://api.fastly.com/service/" ++ env.ServiceID ++ "/publish/",
          "__PUT_YOUR_FASTLY_API_TOKEN__",
          ⟨[⟨X, ⟨⟨"event: message\ndata: " ++ j ++ "\n\n"⟩⟩⟩]⟩⟩ "fastly",
        Ev.SetHeader "Content-Type" "application/json", Ev.WriteHeader 202,
        Ev.Write (j ++ "\n")] := by
    have hne : ("POST" == "GET") = false := by decide
    simp [serve, handler, h1, hpath, hmeth, handleMessages, hq, hsid, hbody, hreply,
      hnew, hsend, hne]
  rw [ht]
  refine ⟨rfl, ?_, ⟨_, rfl, rfl⟩⟩
  simp [responseOf, bodyOf]

/-- Witness of C4 (amended): `POST /messages?sessionId=abc` with a ping. -/
theorem C4_publish_and_accept_witness :
    (responseOf (serve demoEnv []
      (mkRequest "POST" "/messages" "sessionId=abc" [] pingMessage)).trace).status
      = some 202 ∧
    (responseOf (serve demoEnv []
      (mkRequest "POST" "/messages" "sessionId=abc" [] pingMessage)).trace).body
      = "\x7b\"jsonrpc\":\"2.0\",\"id\":1,\"result\":\x7b\x7d\x7d" ++ "\n" ∧
    ∃ req, sentRequests (serve demoEnv []
        (mkRequest "POST" "/messages" "sessionId=abc" [] pingMessage)).trace = [req] ∧
      req.Payload.Items = [⟨toBytes "abc".data, ⟨⟨"event: message\ndata: " ++
        "\x7b\"jsonrpc\":\"2.0\",\"id\":1,\"result\":\x7b\x7d\x7d" ++ "\n\n"⟩⟩⟩] :=
  C4_publish_and_accept demoEnv [] (mkRequest "POST" "/messages" "sessionId=abc" [] pingMessage)
    pingMessage "\x7b\"jsonrpc\":\"2.0\",\"id\":1,\"result\":\x7b\x7d\x7d" (toBytes "abc".data) []
    (by decide) rfl (by decide) (by decide) rfl (by decide) rfl rfl

end McpServer
